import Mathlib

/-!
Shallow embedding of `canvas_export_enrollment_b2c_final_2.py`: the paginated
harvesting client with retry/backoff and the per-student aggregation engine.
Network responses are supplied as explicit data (oracles), and the Python
functions are translated into pure Lean functions over them.
-/

namespace CanvasSync

/-! ## String primitives

Python `str` values are sequences of code points, so the string operations of
the source are modelled by structural recursion over `String.data : List Char`
(Lean's own `String.splitOn`, `trim`, `<` use well-founded recursion or
iterators and are avoided). -/

/-- Splits a character list at every character satisfying `p`; empty pieces
are kept, as in Python `str.split(sep)`. -/
def splitWhenL (p : Char → Bool) : List Char → List (List Char)
  | [] => [[]]
  | x :: xs =>
    let r := splitWhenL p xs
    if p x then [] :: r
    else
      match r with
      | [] => [[x]]
      | y :: ys => (x :: y) :: ys

/-- Python `s.split(c)` for a one-character separator `c`. -/
def pySplitChar (c : Char) (s : String) : List String :=
  (splitWhenL (· == c) s.data).map List.asString

/-- Python `s.split()`: split on whitespace runs, dropping empty pieces. -/
def pySplitWs (s : String) : List String :=
  ((splitWhenL Char.isWhitespace s.data).filter (fun p => p ≠ [])).map List.asString

/-- Strips leading and trailing characters satisfying `p`. -/
def stripWhenL (p : Char → Bool) (l : List Char) : List Char :=
  ((l.dropWhile p).reverse.dropWhile p).reverse

/-- Python `s.strip()` (whitespace on both ends). -/
def pyStrip (s : String) : String :=
  (stripWhenL Char.isWhitespace s.data).asString

/-- Python `s.strip('"')` for one strip character `c`. -/
def stripChar (c : Char) (s : String) : String :=
  (stripWhenL (· == c) s.data).asString

/-- Whether `pat` is a prefix of `l`, by structural recursion
(Python `startswith`). -/
def startsWithL (pat l : List Char) : Bool :=
  match pat, l with
  | [], _ => true
  | _ :: _, [] => false
  | p :: ps, x :: xs => p == x && startsWithL ps xs

/-- Python `s.startswith(pat)`. -/
def pyStartsWith (pat s : String) : Bool := startsWithL pat.data s.data

/-- Python `s.endswith(pat)`. -/
def pyEndsWith (pat s : String) : Bool := startsWithL pat.data.reverse s.data.reverse

/-! ## Link-header parsing (`parse_link_header`, lines 49-71) -/

/-- Python `seg.split("=", 1)[1]`: everything after the first `=`.
Only called on segments that contain `=`. -/
def afterFirstEq (seg : String) : String :=
  String.intercalate "=" (pySplitChar '=' seg).tail

/-- Python truthiness of an optional string (`if rel and url`): present and
non-empty. -/
def truthyStr : Option String → Bool
  | none => false
  | some s => s ≠ ""

/-- Inner loop of `parse_link_header` over `section[1:]`: the last
`rel=`-prefixed segment determines `rel` (stripped of whitespace and quotes). -/
def relOfSegs (segs : List String) : Option String :=
  segs.foldl (fun rel seg =>
    let seg := pyStrip seg
    if pyStartsWith "rel=" seg then some (stripChar '"' (pyStrip (afterFirstEq seg)))
    else rel) none

/-- Processes one comma-separated part of the link header, appending a
`(rel, url)` pair when the part is well-formed (`<url>` bracketed, a `rel=`
segment present, both non-empty). -/
def linkPartStep (links : List (String × String)) (part : String) : List (String × String) :=
  let segs := pySplitChar ';' (pyStrip part)
  match segs with
  | [] => links
  | urlPart0 :: rest =>
    if rest = [] then links
    else
      let urlPart := pyStrip urlPart0
      if pyStartsWith "<" urlPart && pyEndsWith ">" urlPart then
        let url := ((urlPart.data.drop 1).dropLast).asString
        match relOfSegs rest with
        | some rel => if rel ≠ "" && url ≠ "" then links ++ [(rel, url)] else links
        | none => links
      else links

/-- Translation of `parse_link_header`: returns the `(rel, url)` pairs in
assignment order; the Python dict is recovered by `dictGet` (last assignment
wins). The empty header yields no links. -/
def parse_link_header (linkHeader : String) : List (String × String) :=
  if linkHeader = "" then []
  else (pySplitChar ',' linkHeader).foldl linkPartStep []

/-- Python dict lookup over the assignment list: the value of the last
assignment to key `k`, if any (`links.get(k)`). -/
def dictGet (links : List (String × String)) (k : String) : Option String :=
  ((links.filter (fun p => p.1 == k)).getLast?).map Prod.snd

/-! ## Pagination (`CanvasClient.paged_get`, lines 107-122) -/

/-- JSON body of one page: either a JSON array or a single JSON object, with
items drawn from an abstract item type `α`. -/
inductive Body (α : Type) where
  | arr (items : List α)
  | obj (item : α)
deriving DecidableEq

/-- Items yielded for one body: each element of an array individually, a
single object as one item (lines 113-117). -/
def itemsOf {α : Type} : Body α → List α
  | .arr items => items
  | .obj item => [item]

/-- One HTTP page response: its JSON body and its `Link` header
(`resp.headers.get("Link", "")`; an absent header is the empty string). -/
structure PageResponse (α : Type) where
  body : Body α
  linkHeader : String
deriving DecidableEq

/-- The `next` link of a response, as extracted on lines 118-119. -/
def nextUrl {α : Type} (r : PageResponse α) : Option String :=
  dictGet (parse_link_header r.linkHeader) "next"

/-- Translation of `paged_get`. The network is modelled by the finite
sequence of responses the server returns to the successive requests; the loop
consumes the next response only while the previous one carried a `next`
relation. -/
def paged_get {α : Type} : List (PageResponse α) → List α
  | [] => []
  | r :: rest =>
    itemsOf r.body ++ (if (nextUrl r).isSome then paged_get rest else [])

/-! ## Retrying GET (`robust_get`, lines 73-91) -/

/-- RETRY_STATUS (line 47). -/
def isRetryStatus (s : Nat) : Bool :=
  s == 429 || s == 500 || s == 502 || s == 503 || s == 504

/-- Statuses on which `requests.Response.raise_for_status` raises:
4xx and 5xx. -/
def raisesForStatus (s : Nat) : Bool := 400 ≤ s && s < 600

/-- The `Retry-After` header of a response: absent (or empty, which Python
treats as falsy), present but not parseable as a number (`float` raises, the
hint is ignored), or a numeric value. -/
inductive RAfter where
  | absent
  | malformed
  | num (q : ℚ)
deriving DecidableEq

/-- One HTTP response as seen by `robust_get`: status code and `Retry-After`
header. -/
structure HttpResp where
  status : Nat
  retryAfter : RAfter
deriving DecidableEq

/-- Outcome of `robust_get`:
`returned a r` — attempt `a` got response `r` and returned it;
`raised a r` — attempt `a` got non-retryable `r` and `raise_for_status` raised;
`exhausted a r` — the retry budget ran out after attempt `a`; the final
`raise_for_status` on the last (retryable, hence 4xx/5xx) response raised;
`noAttempt` — a zero retry budget (never used with the default of 5). -/
inductive RobustResult where
  | returned (attempt : Nat) (r : HttpResp)
  | raised (attempt : Nat) (r : HttpResp)
  | exhausted (attempt : Nat) (r : HttpResp)
  | noAttempt
deriving DecidableEq

/-- The wait actually slept before a retry (lines 78-85): the computed backoff,
raised to a numeric `Retry-After` hint when one parses. -/
def waitOf (delay : ℚ) : RAfter → ℚ
  | .num q => max delay q
  | _ => delay

/-- Loop body of `robust_get`. `resps k` is the response to the `k`-th request
(1-indexed); the third argument is the number of attempts left; `delay` is the
current backoff. Returns the outcome and the list of sleeps performed, in
order: a retryable status on the last attempt still sleeps before the loop
ends and the final `raise_for_status` raises (lines 84-90). -/
def robustGetAux (resps : Nat → HttpResp) (attempt : Nat) :
    Nat → ℚ → RobustResult × List ℚ
  | 0, _ => (.noAttempt, [])
  | 1, delay =>
    let r := resps attempt
    if isRetryStatus r.status then (.exhausted attempt r, [waitOf delay r.retryAfter])
    else if raisesForStatus r.status then (.raised attempt r, [])
    else (.returned attempt r, [])
  | rem + 2, delay =>
    let r := resps attempt
    if isRetryStatus r.status then
      let w := waitOf delay r.retryAfter
      let res := robustGetAux resps (attempt + 1) (rem + 1) (min (w * 2) 30)
      (res.1, w :: res.2)
    else if raisesForStatus r.status then (.raised attempt r, [])
    else (.returned attempt r, [])

/-- Translation of `robust_get`: `delay` starts at `1.0`, up to `maxRetries`
attempts. -/
def robust_get (resps : Nat → HttpResp) (maxRetries : Nat) : RobustResult × List ℚ :=
  robustGetAux resps 1 maxRetries 1

/-- The `Retry-After` hints of the run of retryable responses starting at
request `start`, over at most `n` requests: these are exactly the responses
that trigger a sleep. -/
def retriedHintsFrom (resps : Nat → HttpResp) (start n : Nat) : List RAfter :=
  (((List.range n).map (fun i => resps (start + i))).takeWhile
    (fun r => isRetryStatus r.status)).map (fun r => r.retryAfter)

/-- The hints of the retried responses of a whole `robust_get` run (requests
are 1-indexed). -/
def retriedHints (resps : Nat → HttpResp) (n : Nat) : List RAfter :=
  retriedHintsFrom resps 1 n

/-- Backoff schedule as the claim describes it: the wait for each retry is the
current backoff raised to a numeric hint; the backoff then doubles, capped at
30. Written from the spec for comparison with `robust_get`. -/
def claimWaits : List RAfter → ℚ → List ℚ
  | [], _ => []
  | h :: hs, d =>
    let w := waitOf d h
    w :: claimWaits hs (min (w * 2) 30)

/-! ## Name and email helpers (`split_first_last`, `pick_email`, lines 154-168) -/

/-- Branch of `split_first_last` for a plain display name: a single word is the
first name; otherwise the last word is the last name and the rest joined by a
space is the first name (lines 160-164). -/
def splitPlainName (parts : List String) : String × String :=
  match parts with
  | [] => ("", "")
  | [p] => (p, "")
  | p :: q :: rest =>
    let ps := p :: q :: rest
    (String.intercalate " " (ps.dropLast), ps.getLast (by simp))

/-- Translation of `split_first_last`: a sortable name containing a comma is
split at the first comma into `last, first`; otherwise the display name is
split on whitespace. Returns `(first, last)`. -/
def split_first_last (name sortable_name : Option String) : String × String :=
  let sname := pyStrip (sortable_name.getD "")
  let n := pyStrip (name.getD "")
  if sname ≠ "" && sname.data.contains ',' then
    let ps := pySplitChar ',' sname
    let last := pyStrip (ps.headD "")
    let first := pyStrip (String.intercalate "," ps.tail)
    (first, last)
  else if n ≠ "" then splitPlainName (pySplitWs n)
  else ("", "")

/-- One user record, as consumed by `pick_email` and `split_first_last`. -/
structure UserRec where
  name : Option String
  sortable_name : Option String
  email : Option String
  login_id : Option String
deriving DecidableEq

/-- Translation of `pick_email`: `(user.get("email") or user.get("login_id")
or "").strip()`. -/
def pick_email (u : UserRec) : String :=
  pyStrip (if truthyStr u.email then u.email.getD ""
   else if truthyStr u.login_id then u.login_id.getD ""
   else "")

/-! ## Enrollment-status rollup (lines 222-229) -/

/-- Strict lexicographic order on character lists (Python string `<` compares
code points). -/
def strLtL : List Char → List Char → Bool
  | [], [] => false
  | [], _ :: _ => true
  | _ :: _, [] => false
  | a :: as, b :: bs => a < b || (a == b && strLtL as bs)

/-- Python string `<=`: lexicographic by code point. -/
def strLe (a b : String) : Bool := strLtL a.data b.data || a.data == b.data

/-- The comparison of `strLe` as a decidable relation, for sorting. -/
def strLeP (a b : String) : Prop := strLe a b = true

instance : DecidableRel strLeP := fun a b => instDecidableEqBool (strLe a b) true

/-- Python `sorted(l)` on strings: ascending stable sort by `strLe`, modelled
with `insertionSort` (stable and structurally computable). -/
def pySorted (l : List String) : List String := List.insertionSort strLeP l

/-- Python `sorted(set([s for s in statuses if s]))`: the distinct non-empty
states in ascending lexicographic order. -/
def statusJoinList (statuses : List String) : List String :=
  pySorted ((statuses.filter (fun s => s ≠ "")).dedup)

/-- Translation of lines 222-229: the overall enrollment status derived from
the collected per-enrollment states. -/
def overallStatus (statuses : List String) : String :=
  if statuses = [] then ""
  else if statuses.any (fun s => s == "active") then "active"
  else if statuses.all (fun s => s == "completed" || s == "inactive" || s == "deleted") then
    "completed"
  else String.intercalate "," (statusJoinList statuses)

/-! ## Aggregation (`build_summary_for_student`, lines 170-275) -/

/-- One enrollment record as consumed by the aggregation loop. `createdAt`
models the result of `iso_parse(enr.get("created_at"))`: `none` when the field
is absent or fails to parse, timestamps as integers (only their order is
used). -/
structure Enrollment where
  course_id : Option Int
  enrollment_state : Option String
  createdAt : Option Int
deriving DecidableEq

/-- One course record; only its (possibly absent) name is consumed. -/
structure Course where
  name : Option String
deriving DecidableEq

/-- Assignment records are only counted, never inspected. -/
def Assignment : Type := Unit

/-- One submission record as consumed by the completion predicate
(line 214). -/
structure Submission where
  submitted_at : Option String
  workflow_state : Option String
deriving DecidableEq

/-- One observer-enrollment record (lines 236-244). `user` is `none` when the
payload has no (or a falsy) `user` object. -/
structure Obs where
  associated_user_id : Option Int
  user : Option UserRec
deriving DecidableEq

/-- The network, as seen by one `build_summary_for_student` call: results of
`get_course`, `list_course_assignments`, `list_student_submissions` (an
`Except.error` models a raised exception) and `list_course_observer_enrollments`
(the records yielded before a possible exception, with `true` when the listing
completed without raising). -/
structure Oracles where
  getCourse : Int → Except Unit Course
  listAssignments : Int → Except Unit (List Assignment)
  listSubmissions : Int → Int → Except Unit (List Submission)
  listObservers : Int → List Obs × Bool

/-- Running state of the per-enrollment loop (lines 178-184). `courseIds`
models the Python set `course_ids` as its members in first-insertion order. -/
structure AggState where
  statuses : List String
  earliest : Option Int
  courseIds : List Int
  courseNames : List String
  totalAssignments : Nat
  completedAssignments : Nat
deriving DecidableEq

/-- Initial loop state. -/
def initAggState : AggState :=
  { statuses := [], earliest := none, courseIds := [], courseNames := [],
    totalAssignments := 0, completedAssignments := 0 }

/-- Set insertion for the modelled `course_ids` set. -/
def insertIfAbsent (l : List Int) (c : Int) : List Int :=
  if l.contains c then l else l ++ [c]

/-- Completion predicate for one submission (line 214): a truthy
`submitted_at` or a workflow state of `submitted` or `graded`. -/
def isCompleteSubmission (sub : Submission) : Bool :=
  truthyStr sub.submitted_at ||
    (match sub.workflow_state with
     | some s => s == "submitted" || s == "graded"
     | none => false)

/-- Course name recorded on success: `course.get("name") or str(cid)`
(line 201). -/
def courseNameOf (cid : Int) (course : Course) : String :=
  if truthyStr course.name then course.name.getD "" else toString cid

/-- Body of the per-enrollment loop (lines 189-219) for one enrollment:
a falsy `course_id` (absent or 0) skips the enrollment entirely; otherwise the
state, timestamp and course id are recorded, the course detail is fetched
(non-fatally), and, when requested, assignments and submissions are counted. -/
def enrStep (o : Oracles) (include_assignments : Bool) (uid : Int)
    (st : AggState) (enr : Enrollment) : AggState :=
  match enr.course_id with
  | none => st
  | some cid =>
    if cid = 0 then st
    else
      let st1 : AggState :=
        { st with
          courseIds := insertIfAbsent st.courseIds cid,
          statuses := st.statuses ++ [enr.enrollment_state.getD ""],
          earliest :=
            match enr.createdAt, st.earliest with
            | some t, none => some t
            | some t, some e => if t < e then some t else some e
            | none, e => e }
      let st2 : AggState :=
        match o.getCourse cid with
        | .ok course => { st1 with courseNames := st1.courseNames ++ [courseNameOf cid course] }
        | .error _ => st1
      if include_assignments then
        match o.listAssignments cid with
        | .error _ => st2
        | .ok assns =>
          let st3 := { st2 with totalAssignments := st2.totalAssignments + assns.length }
          match o.listSubmissions cid uid with
          | .error _ => st3
          | .ok subs =>
            { st3 with completedAssignments :=
                st3.completedAssignments + (subs.filter isCompleteSubmission).length }
      else st2

/-- The state after the whole enrollment loop. -/
def aggState (o : Oracles) (include_assignments : Bool) (uid : Int)
    (enrollments : List Enrollment) : AggState :=
  enrollments.foldl (enrStep o include_assignments uid) initAggState

/-! ## Observer scan (lines 231-246) -/

/-- Guardian fields accumulated by the observer scan. The linked flag is the
string `"Yes"`/`"No"` exactly as in the code. -/
structure GuardState where
  observer_linked : String
  parent_first : String
  parent_last : String
  parent_email : String
deriving DecidableEq

/-- Initial guardian state (lines 232-233). -/
def initGuardState : GuardState :=
  { observer_linked := "No", parent_first := "", parent_last := "", parent_email := "" }

/-- A record matches when `int(obs.get("associated_user_id") or 0)` equals the
student's id (line 237). -/
def obsMatches (uid : Int) (obs : Obs) : Bool :=
  obs.associated_user_id.getD 0 == uid

/-- The empty user substituted for a falsy `user` payload (line 240). -/
def emptyUser : UserRec :=
  { name := none, sortable_name := none, email := none, login_id := none }

/-- The user payload of an observer record, with the falsy default. -/
def obsUser (obs : Obs) : UserRec := obs.user.getD emptyUser

/-- Guardian first name carried by an observer record (line 241). -/
def obsPF (obs : Obs) : String :=
  (split_first_last (obsUser obs).name (obsUser obs).sortable_name).1

/-- Guardian last name carried by an observer record (line 241). -/
def obsPL (obs : Obs) : String :=
  (split_first_last (obsUser obs).name (obsUser obs).sortable_name).2

/-- Guardian email carried by an observer record (line 244). -/
def obsPE (obs : Obs) : String := pick_email (obsUser obs)

/-- Body of the observer loop (lines 237-244): a matching record flips the
flag and fills each still-empty guardian field (`parent_first or pf` keeps an
existing non-empty value). -/
def obsStep (uid : Int) (g : GuardState) (obs : Obs) : GuardState :=
  if !(obsMatches uid obs) then g
  else
    { observer_linked := "Yes",
      parent_first := if g.parent_first ≠ "" then g.parent_first else obsPF obs,
      parent_last := if g.parent_last ≠ "" then g.parent_last else obsPL obs,
      parent_email := if g.parent_email ≠ "" then g.parent_email else obsPE obs }

/-- Fold of the observer loop over one course's records. -/
def obsFold (uid : Int) (g : GuardState) (recs : List Obs) : GuardState :=
  recs.foldl (obsStep uid) g

/-- Scan over `list(course_ids)[:10]` (line 235): per course, the yielded
observer records are folded in; an exception while listing (the `Bool` is
`false`) aborts the whole scan, keeping the state accumulated so far
(the surrounding `try` catches it, lines 234-246). -/
def observerScan (o : Oracles) (uid : Int) : List Int → GuardState → GuardState
  | [], g => g
  | c :: cs, g =>
    let (recs, ok) := o.listObservers c
    let g1 := obsFold uid g recs
    if ok then observerScan o uid cs g1 else g1

/-! ## Progress and summary assembly (lines 248-275) -/

/-- Python `round` to an integer: round half to even. -/
def roundHalfEven (q : ℚ) : ℤ :=
  if q - ⌊q⌋ < 1/2 then ⌊q⌋
  else if q - ⌊q⌋ > 1/2 then ⌊q⌋ + 1
  else if ⌊q⌋ % 2 = 0 then ⌊q⌋ else ⌊q⌋ + 1

/-- Python `round(x, 2)` modelled over exact rationals. -/
def round2 (q : ℚ) : ℚ := (roundHalfEven (q * 100) : ℚ) / 100

/-- Lines 248-250: the progress percentage, populated only when assignment
metrics are on and the total is positive; `none` models the empty string. -/
def progressOf (include_assignments : Bool) (total completed : Nat) : Option ℚ :=
  if include_assignments && decide (0 < total) then
    some (round2 (100 * (completed : ℚ) / (total : ℚ)))
  else none

/-- One student record as consumed by `build_summary_for_student`. -/
structure StudentUser where
  id : Int
  name : Option String
  sortable_name : Option String
  email : Option String
  login_id : Option String
  sis_user_id : Option String
deriving DecidableEq

/-- The output record, restricted to the derived fields (constant-blank
columns omitted). `Option` fields model columns that are the empty string
unless populated. -/
structure StudentSummary where
  first : String
  last : String
  sis_user_id : String
  email : String
  parent_first : String
  parent_last : String
  parent_email : String
  enrollment_date : Option Int
  observer_linked : String
  total_assignments : Option Nat
  completed : Option Nat
  total_courses : Nat
  progress : Option ℚ
  enrollment_status : String
  course_names : String
deriving DecidableEq

/-- The user record embedded in a student listing item. -/
def userRecOf (user : StudentUser) : UserRec :=
  { name := user.name, sortable_name := user.sortable_name,
    email := user.email, login_id := user.login_id }

/-- Translation of `build_summary_for_student` (lines 170-275), with the
student's enrollments passed as the list the client yielded and the nested
fetches supplied by `Oracles`. -/
def build_summary_for_student (o : Oracles) (user : StudentUser)
    (include_assignments : Bool) (enrollments : List Enrollment) : StudentSummary :=
  let uid := user.id
  let fl := split_first_last user.name user.sortable_name
  let email := pick_email (userRecOf user)
  let sis := pyStrip (user.sis_user_id.getD "")
  let st := aggState o include_assignments uid enrollments
  let g := observerScan o uid (st.courseIds.take 10) initGuardState
  { first := fl.1
    last := fl.2
    sis_user_id := sis
    email := email
    parent_first := g.parent_first
    parent_last := g.parent_last
    parent_email := g.parent_email
    enrollment_date := st.earliest
    observer_linked := g.observer_linked
    total_assignments := if include_assignments then some st.totalAssignments else none
    completed := if include_assignments then some st.completedAssignments else none
    total_courses := st.courseIds.length
    progress := progressOf include_assignments st.totalAssignments st.completedAssignments
    enrollment_status := overallStatus st.statuses
    course_names := String.intercalate "; " (pySorted st.courseNames) }

/-! ## Identity filter (`main`, lines 330-334) -/

/-- Translation of the two filter `continue`s in `main`: a student is skipped
when an active (truthy, i.e. non-empty) canvas-id set lacks the id, or when an
active sis-id set is given and the sis id is empty or not in the set. -/
def passes_filters (canvasIds : Option (List Int)) (sisIds : Option (List String))
    (uid : Int) (sis : String) : Bool :=
  !(match canvasIds with
    | some s => !s.isEmpty && !s.contains uid
    | none => false) &&
  !(match sisIds with
    | some s => !s.isEmpty && (sis == "" || !s.contains sis)
    | none => false)

/-- The identity filter as the claim words it: a student passes when no
filters are configured, and otherwise when the canvas id is in the active
integer set OR the sis id is non-empty and in the active string set. Written
from the spec for comparison with `passes_filters`. -/
def claimFilterOr (canvasIds : Option (List Int)) (sisIds : Option (List String))
    (uid : Int) (sis : String) : Bool :=
  match canvasIds, sisIds with
  | none, none => true
  | _, _ =>
    (match canvasIds with
     | some s => !s.isEmpty && s.contains uid
     | none => false) ||
    (match sisIds with
     | some s => !s.isEmpty && (sis ≠ "" && s.contains sis)
     | none => false)

/-! ## Definitions used to state the claims -/

/-- A response sequence is well chained when every page except the last
carries a `next` relation and the last page carries none. -/
def wellChained {α : Type} : List (PageResponse α) → Bool
  | [] => true
  | [r] => (nextUrl r).isNone
  | r :: r2 :: rest => (nextUrl r).isSome && wellChained (r2 :: rest)

/-- Pass condition of the canvas-id filter alone, as the amended claim words
it: inactive (absent or empty) or containing the id. -/
def canvasOk (canvasIds : Option (List Int)) (uid : Int) : Bool :=
  match canvasIds with
  | none => true
  | some s => s.isEmpty || s.contains uid

/-- Pass condition of the sis-id filter alone, as the amended claim words it:
inactive, or the sis id is non-empty and in the set. -/
def sisOk (sisIds : Option (List String)) (sis : String) : Bool :=
  match sisIds with
  | none => true
  | some s => s.isEmpty || (!(sis == "") && s.contains sis)

/-- The first non-empty string of a list, or `""`: the value a first-write-wins
field ends with after seeing the list. -/
def firstNonEmptyStr (l : List String) : String :=
  (l.filter (fun s => s ≠ "")).headD ""

/-! ## Concrete instances used by witnesses and counterexamples -/

/-- Two chained pages followed by a last page, for the pagination witness. -/
def exPages : List (PageResponse Nat) :=
  [⟨Body.arr [1, 2], "<http://x?page=2>; rel=\"next\""⟩, ⟨Body.obj 3, ""⟩]

/-- A single page whose link header is malformed (no angle brackets), for the
malformed-header witness. -/
def exMalformedPage : PageResponse Nat :=
  ⟨Body.arr [4, 5], "http://x?page=2; rel=\"next\""⟩

/-- Server that always answers 503 without a hint. -/
def const503 : Nat → HttpResp := fun _ => ⟨503, RAfter.absent⟩

/-- Server that answers 503 twice, then 200. -/
def seq503x2then200 : Nat → HttpResp :=
  fun i => if i ≤ 2 then ⟨503, RAfter.absent⟩ else ⟨200, RAfter.absent⟩

/-- Server that always answers 304 Not Modified. -/
def const304 : Nat → HttpResp := fun _ => ⟨304, RAfter.absent⟩

/-- Server that always answers 404. -/
def const404 : Nat → HttpResp := fun _ => ⟨404, RAfter.absent⟩

/-- Server that answers 503 with a numeric `Retry-After: 25` hint on the first
request and plain 503 afterwards. -/
def seqHint25 : Nat → HttpResp :=
  fun i => if i = 1 then ⟨503, RAfter.num 25⟩ else ⟨503, RAfter.absent⟩

/-- A student record for the aggregation scenarios. -/
def exUser : StudentUser :=
  { id := 1, name := some "Ada King", sortable_name := none,
    email := some "ada@x.io", login_id := none, sis_user_id := none }

/-- Oracles for the course-fetch-failure scenario: fetching any course detail
raises, while its assignments (two of them) and submissions (none) succeed. -/
def exFailCourseOracles : Oracles :=
  { getCourse := fun _ => Except.error ()
    listAssignments := fun _ => Except.ok [(), ()]
    listSubmissions := fun _ _ => Except.ok []
    listObservers := fun _ => ([], true) }

/-- An enrollment in course 7 in state `active`. -/
def exEnr7 : Enrollment :=
  { course_id := some 7, enrollment_state := some "active", createdAt := none }

/-! ## Theorems -/

/-- C2: pagination yields exactly the concatenation of all pages' items: for a
well-chained response sequence (every page but the last carries a `next` link,
the last carries none) `paged_get` returns the pages' items in page order with
item order preserved, terminating at the page without a `next` relation; a
JSON-array body contributes its elements individually and a single JSON object
contributes one item. -/
theorem paged_get_concat_c2 :
    (∀ (α : Type) (rs : List (PageResponse α)), wellChained rs = true →
      paged_get rs = (rs.map (fun r => itemsOf r.body)).flatten) ∧
    (∀ (α : Type) (r : PageResponse α), nextUrl r = none →
      paged_get [r] = itemsOf r.body) ∧
    (∀ (α : Type) (items : List α), itemsOf (Body.arr items) = items) ∧
    (∀ (α : Type) (x : α), itemsOf (Body.obj x) = [x]) := by
  refine ⟨?_, ?_, fun _ _ => rfl, fun _ _ => rfl⟩
  · intro α rs
    induction rs with
    | nil => intro _; rfl
    | cons r rest ih =>
      intro h
      cases rest with
      | nil =>
        have h1 : (nextUrl r).isNone = true := by simpa [wellChained] using h
        have h2 : (nextUrl r).isSome = false := by
          cases hn : nextUrl r <;> simp [hn] at h1 ⊢
        simp [paged_get, h2]
      | cons r2 rest2 =>
        have h1 : (nextUrl r).isSome = true ∧ wellChained (r2 :: rest2) = true := by
          simpa [wellChained] using h
        calc paged_get (r :: r2 :: rest2)
            = itemsOf r.body ++ paged_get (r2 :: rest2) := by
              simp [paged_get, h1.1]
          _ = itemsOf r.body ++ (List.map (fun x => itemsOf x.body) (r2 :: rest2)).flatten := by
              rw [ih h1.2]
          _ = (List.map (fun x => itemsOf x.body) (r :: r2 :: rest2)).flatten := by simp
  · intro α r hn
    have h2 : (nextUrl r).isSome = false := by simp [hn]
    simp [paged_get, h2]

/-- C2 witness: the chained two-page sequence `exPages` (an array page linked
to an object page) satisfies the hypotheses and yields the concatenation. -/
theorem paged_get_concat_c2_witness :
    wellChained exPages = true ∧
    paged_get exPages = (exPages.map (fun r => itemsOf r.body)).flatten ∧
    nextUrl (⟨Body.arr [9], ""⟩ : PageResponse Nat) = none ∧
    paged_get [(⟨Body.arr [9], ""⟩ : PageResponse Nat)] =
      itemsOf (⟨Body.arr [9], ""⟩ : PageResponse Nat).body := by
  refine ⟨by decide, paged_get_concat_c2.1 Nat exPages (by decide), by decide,
    paged_get_concat_c2.2.1 Nat _ (by decide)⟩

/-- C9: a response whose link header yields no extractable `next` relation
(absent, i.e. empty, or malformed) ends the pagination: the page's items are
yielded and no further response is consumed, whatever would follow; the empty
and assorted malformed headers indeed produce no `next` link. -/
theorem malformed_link_stops_c9 :
    (∀ (α : Type) (r : PageResponse α) (rest : List (PageResponse α)),
      nextUrl r = none → paged_get (r :: rest) = itemsOf r.body) ∧
    parse_link_header "" = [] ∧
    dictGet (parse_link_header "garbage") "next" = none ∧
    dictGet (parse_link_header "http://x?page=2; rel=\"next\"") "next" = none ∧
    dictGet (parse_link_header "<http://x?page=2>") "next" = none ∧
    dictGet (parse_link_header "<http://x?page=9>; rel=\"last\"") "next" = none := by
  refine ⟨?_, by decide, by decide, by decide, by decide, by decide⟩
  intro α r rest hn
  have h2 : (nextUrl r).isSome = false := by simp [hn]
  simp [paged_get, h2]

/-- C9 witness: the malformed page stops pagination even with a further page
available. -/
theorem malformed_link_stops_c9_witness :
    nextUrl exMalformedPage = none ∧
    paged_get [exMalformedPage, ⟨Body.arr [6], ""⟩] = itemsOf exMalformedPage.body :=
  ⟨by decide, malformed_link_stops_c9.1 Nat exMalformedPage [⟨Body.arr [6], ""⟩] (by decide)⟩

/-- C3 (amended): with the default budget of 5 attempts, the status sequence
[503, 503, 200] produces exactly 2 retries (two sleeps) and returns the 200
response on attempt 3; five consecutive 503s raise a permanent error after the
5th attempt and not before (all five attempts run, each sleeping); and a first
response whose status is not in {429, 500, 502, 503, 504} ends the call
immediately with no retry — raising when the status is a 4xx/5xx, and
returning the response otherwise (1xx/3xx statuses are returned as success,
not failed, since `raise_for_status` only raises on 4xx/5xx). -/
theorem retry_policy_c3 :
    robust_get seq503x2then200 5 =
      (RobustResult.returned 3 ⟨200, RAfter.absent⟩, [1, 2]) ∧
    robust_get const503 5 =
      (RobustResult.exhausted 5 ⟨503, RAfter.absent⟩, [1, 2, 4, 8, 16]) ∧
    (∀ (resps : Nat → HttpResp) (n : Nat),
      isRetryStatus (resps 1).status = false → raisesForStatus (resps 1).status = true →
      robust_get resps (n + 1) = (RobustResult.raised 1 (resps 1), [])) ∧
    (∀ (resps : Nat → HttpResp) (n : Nat),
      isRetryStatus (resps 1).status = false → raisesForStatus (resps 1).status = false →
      robust_get resps (n + 1) = (RobustResult.returned 1 (resps 1), [])) := by
  refine ⟨?_, ?_, ?_, ?_⟩
  · norm_num [robust_get, robustGetAux, seq503x2then200, isRetryStatus, raisesForStatus, waitOf]
  · norm_num [robust_get, robustGetAux, const503, isRetryStatus, raisesForStatus, waitOf]
  · intro resps n h1 h2
    cases n <;> simp [robust_get, robustGetAux, h1, h2]
  · intro resps n h1 h2
    cases n <;> simp [robust_get, robustGetAux, h1, h2]

/-- C3 witness: a constant 404 server fails immediately on attempt 1 with no
sleep, and a constant 304 server returns immediately on attempt 1 with no
sleep; both hypotheses of the general clauses are discharged at these
inputs. -/
theorem retry_policy_c3_witness :
    robust_get const404 5 = (RobustResult.raised 1 ⟨404, RAfter.absent⟩, []) ∧
    robust_get const304 5 = (RobustResult.returned 1 ⟨304, RAfter.absent⟩, []) :=
  ⟨retry_policy_c3.2.2.1 const404 4 (by decide) (by decide),
   retry_policy_c3.2.2.2 const304 4 (by decide) (by decide)⟩

/-- C3 counterexample: the claim says any non-2xx status outside
{429, 500, 502, 503, 504} fails immediately, but a 304 response is returned as
a success (constructor `returned`, not `raised`): `raise_for_status` does not
raise on 3xx statuses. -/
theorem retry_policy_c3_counterexample :
    robust_get const304 5 = (RobustResult.returned 1 ⟨304, RAfter.absent⟩, []) ∧
    RobustResult.returned 1 (⟨304, RAfter.absent⟩ : HttpResp) ≠
      RobustResult.raised 1 ⟨304, RAfter.absent⟩ :=
  ⟨rfl, by decide⟩

/-- `retriedHintsFrom` peels one request off the front of the window. -/
theorem retriedHintsFrom_succ (resps : Nat → HttpResp) (attempt n : Nat) :
    retriedHintsFrom resps attempt (n + 1) =
      if isRetryStatus (resps attempt).status then
        (resps attempt).retryAfter :: retriedHintsFrom resps (attempt + 1) n
      else [] := by
  unfold retriedHintsFrom
  rw [List.range_succ_eq_map]
  simp only [List.map_cons, Nat.add_zero, List.map_map]
  have hmap : (List.range n).map ((fun i => resps (attempt + i)) ∘ Nat.succ)
      = (List.range n).map (fun i => resps (attempt + 1 + i)) := by
    apply List.map_congr_left
    intro i _
    simp only [Function.comp]
    congr 1
    omega
  rw [hmap]
  by_cases hr : isRetryStatus (resps attempt).status
  · simp [List.takeWhile_cons, hr]
  · simp [List.takeWhile_cons, hr]

/-- The sleeps performed by the retry loop follow the claimed backoff schedule
applied to the hints of the retried responses. -/
theorem robustGetAux_sleeps (resps : Nat → HttpResp) :
    ∀ (n attempt : Nat) (d : ℚ),
      (robustGetAux resps attempt n d).2 = claimWaits (retriedHintsFrom resps attempt n) d
  | 0, attempt, d => by
    simp [robustGetAux, retriedHintsFrom, claimWaits]
  | 1, attempt, d => by
    rw [retriedHintsFrom_succ]
    by_cases hr : isRetryStatus (resps attempt).status
    · simp [robustGetAux, hr, claimWaits, retriedHintsFrom]
    · by_cases hs : raisesForStatus (resps attempt).status <;>
        simp [robustGetAux, hr, hs, claimWaits]
  | (n + 2), attempt, d => by
    rw [retriedHintsFrom_succ]
    by_cases hr : isRetryStatus (resps attempt).status
    · rw [if_pos hr]
      simp only [robustGetAux, hr, if_true, claimWaits]
      exact congrArg _ (robustGetAux_sleeps resps (n + 1) (attempt + 1) _)
    · rw [if_neg hr]
      by_cases hs : raisesForStatus (resps attempt).status <;>
        simp [robustGetAux, hr, hs, claimWaits]

/-- C8: the sleeps of every `robust_get` run are exactly the claimed backoff
schedule over the retried responses' hints, starting from a backoff of 1.0:
the wait for a retry with a numeric `Retry-After` hint is the maximum of the
current backoff and the hint (hence never below the computed backoff), the
backoff then doubles, capped at 30.0; without hints the waits are
1, 2, 4, 8, 16 over the default budget, and a hint of 25 on the first retry
gives waits 25, 30, 30, 30, 30 (the doubling is capped at 30). -/
theorem backoff_schedule_c8 :
    (∀ (resps : Nat → HttpResp) (n : Nat),
      (robust_get resps n).2 = claimWaits (retriedHints resps n) 1) ∧
    (∀ (h : RAfter) (hs : List RAfter) (d : ℚ),
      (claimWaits (h :: hs) d).headD 0 = waitOf d h) ∧
    (∀ (h : RAfter) (hs : List RAfter) (d : ℚ), d ≤ (claimWaits (h :: hs) d).headD 0) ∧
    (∀ (q : ℚ) (hs : List RAfter) (d : ℚ),
      (claimWaits (RAfter.num q :: hs) d).headD 0 = max d q) ∧
    claimWaits (List.replicate 5 RAfter.absent) 1 = [1, 2, 4, 8, 16] ∧
    (robust_get seqHint25 5).2 = [25, 30, 30, 30, 30] := by
  refine ⟨?_, ?_, ?_, ?_, by norm_num [claimWaits, waitOf], by
    norm_num [robust_get, robustGetAux, seqHint25, isRetryStatus, raisesForStatus, waitOf]⟩
  · intro resps n
    exact robustGetAux_sleeps resps n 1 1
  · intro h hs d
    simp [claimWaits]
  · intro h hs d
    cases h <;> simp [claimWaits, waitOf]
  · intro q hs d
    simp [claimWaits, waitOf]

/-- Lexicographic strict order on character lists is transitive. -/
theorem strLtL_trans (a : List Char) :
    ∀ b c, strLtL a b = true → strLtL b c = true → strLtL a c = true := by
  induction a with
  | nil =>
    intro b c hab hbc
    cases c with
    | nil => cases b <;> simp [strLtL] at hab hbc
    | cons x xs => simp [strLtL]
  | cons x xs ih =>
    intro b c hab hbc
    cases b with
    | nil => simp [strLtL] at hab
    | cons y ys =>
      cases c with
      | nil => simp [strLtL] at hbc
      | cons z zs =>
        simp only [strLtL, Bool.or_eq_true, Bool.and_eq_true, beq_iff_eq,
          decide_eq_true_eq] at hab hbc ⊢
        rcases hab with h1 | ⟨he1, h1⟩ <;> rcases hbc with h2 | ⟨he2, h2⟩
        · exact Or.inl (lt_trans h1 h2)
        · exact Or.inl (he2 ▸ h1)
        · exact Or.inl (he1 ▸ h2)
        · exact Or.inr ⟨he1.trans he2, ih ys zs h1 h2⟩

/-- Lexicographic order on character lists is trichotomous. -/
theorem strLtL_total (a : List Char) :
    ∀ b, strLtL a b = true ∨ a = b ∨ strLtL b a = true := by
  induction a with
  | nil =>
    intro b
    cases b with
    | nil => exact Or.inr (Or.inl rfl)
    | cons y ys => exact Or.inl (by simp [strLtL])
  | cons x xs ih =>
    intro b
    cases b with
    | nil => exact Or.inr (Or.inr (by simp [strLtL]))
    | cons y ys =>
      rcases lt_trichotomy x y with h | h | h
      · exact Or.inl (by simp [strLtL, h])
      · subst h
        rcases ih ys with h2 | h2 | h2
        · exact Or.inl (by simp [strLtL, h2])
        · exact Or.inr (Or.inl (by rw [h2]))
        · exact Or.inr (Or.inr (by simp [strLtL, h2]))
      · exact Or.inr (Or.inr (by simp [strLtL, h]))

instance : IsTrans String strLeP := by
  refine ⟨fun a b c hab hbc => ?_⟩
  unfold strLeP strLe at *
  simp only [Bool.or_eq_true, beq_iff_eq] at *
  rcases hab with h1 | h1 <;> rcases hbc with h2 | h2
  · exact Or.inl (strLtL_trans _ _ _ h1 h2)
  · exact Or.inl (h2 ▸ h1)
  · exact Or.inl (h1 ▸ h2)
  · exact Or.inr (h1.trans h2)

instance : IsTotal String strLeP := by
  refine ⟨fun a b => ?_⟩
  unfold strLeP strLe
  rcases strLtL_total a.data b.data with h | h | h
  · exact Or.inl (by simp [h])
  · exact Or.inl (by simp [h])
  · exact Or.inr (by simp [h])

/-- The comma-joined list of the status rollup is sorted, duplicate-free, and
holds exactly the non-empty states. -/
theorem statusJoinList_spec (ss : List String) :
    (statusJoinList ss).Sorted strLeP ∧ (statusJoinList ss).Nodup ∧
      (∀ s, s ∈ statusJoinList ss ↔ s ∈ ss ∧ s ≠ "") := by
  have hperm := List.perm_insertionSort strLeP ((ss.filter (fun s => s ≠ "")).dedup)
  refine ⟨List.sorted_insertionSort strLeP _, ?_, ?_⟩
  · exact hperm.nodup_iff.mpr (List.nodup_dedup _)
  · intro s
    rw [statusJoinList, pySorted, hperm.mem_iff, List.mem_dedup, List.mem_filter]
    simp

/-- C1: the derived enrollment status is the empty string for an empty state
list; `"active"` when any state is `"active"`; `"completed"` when the list is
non-empty and every state lies in {completed, inactive, deleted}; and
otherwise the comma-join of a sorted, duplicate-free list holding exactly the
non-empty states. The four quoted examples evaluate as the claim says. -/
theorem enrollment_status_rollup_c1 :
    overallStatus [] = "" ∧
    overallStatus ["active", "completed"] = "active" ∧
    overallStatus ["completed", "inactive"] = "completed" ∧
    overallStatus ["invited", "pending"] = "invited,pending" ∧
    (∀ ss : List String, ss.any (fun s => s == "active") = true →
      overallStatus ss = "active") ∧
    (∀ ss : List String, ss ≠ [] →
      ss.all (fun s => s == "completed" || s == "inactive" || s == "deleted") = true →
      overallStatus ss = "completed") ∧
    (∀ ss : List String, ss.any (fun s => s == "active") = false →
      ss.all (fun s => s == "completed" || s == "inactive" || s == "deleted") = false →
      overallStatus ss = String.intercalate "," (statusJoinList ss)) ∧
    (∀ ss : List String, (statusJoinList ss).Sorted strLeP ∧ (statusJoinList ss).Nodup ∧
      (∀ s, s ∈ statusJoinList ss ↔ s ∈ ss ∧ s ≠ "")) := by
  refine ⟨by decide, by decide, by decide, by decide, ?_, ?_, ?_, statusJoinList_spec⟩
  · intro ss h
    have hne : ss ≠ [] := by rintro rfl; simp at h
    simp [overallStatus, hne, h]
  · intro ss hne hall
    have hany : ss.any (fun s => s == "active") = false := by
      rw [Bool.eq_false_iff]
      intro hc
      rcases List.any_eq_true.mp hc with ⟨s, hs, hsa⟩
      have hmem := List.all_eq_true.mp hall s hs
      rw [beq_iff_eq] at hsa
      subst hsa
      simp at hmem
    simp [overallStatus, hne, hany, hall]
  · intro ss hany hall
    have hne : ss ≠ [] := by rintro rfl; simp at hall
    simp [overallStatus, hne, hany, hall]

/-- C1 witness: the general clauses applied at concrete inputs — a list with
an `"active"` state, an all-terminal list, and a mixed list with an empty
state. -/
theorem enrollment_status_rollup_c1_witness :
    overallStatus ["x", "active"] = "active" ∧
    overallStatus ["deleted"] = "completed" ∧
    overallStatus ["pending", "invited", ""] =
      String.intercalate "," (statusJoinList ["pending", "invited", ""]) :=
  ⟨enrollment_status_rollup_c1.2.2.2.2.1 ["x", "active"] (by decide),
   enrollment_status_rollup_c1.2.2.2.2.2.1 ["deleted"] (by decide) (by decide),
   enrollment_status_rollup_c1.2.2.2.2.2.2.1 ["pending", "invited", ""] (by decide) (by decide)⟩

/-- C5 counterexample: with both filters active, a student whose canvas id is
in the integer set but whose sis id is empty passes the claim's OR rule yet is
rejected by the code (the two `continue`s compose the filters conjunctively). -/
theorem identity_filter_c5_counterexample :
    claimFilterOr (some [851]) (some ["S1"]) 851 "" = true ∧
    passes_filters (some [851]) (some ["S1"]) 851 "" = false := by
  exact ⟨by decide, by decide⟩

/-- C5 (amended): the filter passes every student when no filters are
configured; otherwise a student must pass every active filter (conjunction,
not disjunction): an active canvas-id filter requires the canvas id to be in
the set, and an active sis-id filter requires the sis id to be non-empty and
in the set; a student with an empty sis id always fails an active sis filter,
even when the empty string is in the set. -/
theorem identity_filter_c5 :
    (∀ (uid : Int) (sis : String), passes_filters none none uid sis = true) ∧
    (∀ (canvasIds : Option (List Int)) (sisIds : Option (List String))
       (uid : Int) (sis : String),
      passes_filters canvasIds sisIds uid sis = (canvasOk canvasIds uid && sisOk sisIds sis)) ∧
    (∀ (canvasIds : Option (List Int)) (x : String) (xs : List String) (uid : Int),
      passes_filters canvasIds (some (x :: xs)) uid "" = false) := by
  have hb1 : ∀ a d : Bool, (!(!a && !d)) = (a || d) := by decide
  have hb2 : ∀ a b c : Bool, (!(!a && (b || !c))) = (a || (!b && c)) := by decide
  refine ⟨fun uid sis => rfl, ?_, ?_⟩
  · intro cIds sIds uid sis
    cases cIds <;> cases sIds <;>
      simp [passes_filters, canvasOk, sisOk, hb1, hb2]
  · intro cIds x xs uid
    cases cIds <;> simp [passes_filters]

/-- C6: the progress field is `none` (the empty value, never zero) exactly
when assignment metrics are off or the total is zero; when metrics are on and
the total positive it is 100·completed/total rounded to 2 decimals; a total of
10 with 3 completed gives 30; a zero total gives the empty value for every
completed count; and the summary's progress field is exactly this function of
the aggregated totals. -/
theorem progress_field_c6 :
    (∀ (ia : Bool) (t c : Nat), progressOf ia t c = none ↔ ia = false ∨ t = 0) ∧
    (∀ (t c : Nat), progressOf true (t + 1) c =
      some (round2 (100 * (c : ℚ) / ((t : ℚ) + 1)))) ∧
    progressOf true 10 3 = some 30 ∧
    (∀ (ia : Bool) (c : Nat), progressOf ia 0 c = none) ∧
    (∀ (o : Oracles) (u : StudentUser) (ia : Bool) (enrs : List Enrollment),
      (build_summary_for_student o u ia enrs).progress =
        progressOf ia (aggState o ia u.id enrs).totalAssignments
          (aggState o ia u.id enrs).completedAssignments) := by
  refine ⟨?_, ?_, ?_, fun ia c => by cases ia <;> simp [progressOf], fun o u ia enrs => rfl⟩
  · intro ia t c
    cases ia
    · simp [progressOf]
    · rcases Nat.eq_zero_or_pos t with h0 | hp
      · subst h0; simp [progressOf]
      · have hne := Nat.pos_iff_ne_zero.mp hp
        simp [progressOf, hp, hne]
  · intro t c
    have hcast : ((t + 1 : Nat) : ℚ) = (t : ℚ) + 1 := by push_cast; ring
    simp [progressOf, hcast]
  · norm_num [progressOf, round2, roundHalfEven]

/-- C10: an enrollment whose `course_id` is absent or zero (Python-falsy) is
skipped entirely: removing it from the enrollment list, wherever it sits,
leaves the whole summary unchanged — its state enters no rollup, its
timestamp no earliest-date comparison, and it contributes nothing to course
counts, names, or assignment metrics. -/
theorem skip_falsy_enrollment_c10 :
    ∀ (o : Oracles) (u : StudentUser) (ia : Bool) (pre post : List Enrollment)
      (state : Option String) (ts : Option Int),
      build_summary_for_student o u ia
          (pre ++ { course_id := none, enrollment_state := state, createdAt := ts } :: post) =
        build_summary_for_student o u ia (pre ++ post) ∧
      build_summary_for_student o u ia
          (pre ++ { course_id := some 0, enrollment_state := state, createdAt := ts } :: post) =
        build_summary_for_student o u ia (pre ++ post) := by
  intro o u ia pre post state ts
  have hagg : ∀ (e : Enrollment), (∀ st, enrStep o ia u.id st e = st) →
      aggState o ia u.id (pre ++ e :: post) = aggState o ia u.id (pre ++ post) := by
    intro e he
    simp [aggState, List.foldl_append, he]
  constructor
  · have h1 := hagg { course_id := none, enrollment_state := state, createdAt := ts }
      (fun st => rfl)
    simp only [build_summary_for_student, h1]
  · have h1 := hagg { course_id := some 0, enrollment_state := state, createdAt := ts }
      (fun st => by simp [enrStep])
    simp only [build_summary_for_student, h1]

/-- C4 counterexample: with assignment metrics requested, an enrollment whose
course detail fetch fails still has its assignments fetched and counted — the
summary shows 2 total assignments (not 0, as the claim's "assignment metrics
are skipped for that course" would require) while the course contributes
nothing to the course-name list. -/
theorem course_failure_c4_counterexample :
    (build_summary_for_student exFailCourseOracles exUser true [exEnr7]).total_assignments =
      some 2 ∧
    (build_summary_for_student exFailCourseOracles exUser true [exEnr7]).course_names = "" := by
  exact ⟨rfl, rfl⟩

/-- C4 (amended): a failure to fetch one course's detail is non-fatal: the
loop continues, the course contributes nothing to the course-name list, and
the state rollup, earliest date and distinct-course set are unaffected by the
course-fetch outcome; but assignment metrics are not skipped for that course —
whenever metrics are requested, assignments and submissions are fetched and
counted independently of whether the course detail resolved, and no metrics
are counted when they are not requested. -/
theorem course_failure_c4 :
    (∀ (o : Oracles) (f : Int → Except Unit Course) (ia : Bool) (uid : Int)
       (st : AggState) (e : Enrollment),
      (enrStep { o with getCourse := f } ia uid st e).statuses =
          (enrStep o ia uid st e).statuses ∧
      (enrStep { o with getCourse := f } ia uid st e).earliest =
          (enrStep o ia uid st e).earliest ∧
      (enrStep { o with getCourse := f } ia uid st e).courseIds =
          (enrStep o ia uid st e).courseIds ∧
      (enrStep { o with getCourse := f } ia uid st e).totalAssignments =
          (enrStep o ia uid st e).totalAssignments ∧
      (enrStep { o with getCourse := f } ia uid st e).completedAssignments =
          (enrStep o ia uid st e).completedAssignments) ∧
    (∀ (o : Oracles) (ia : Bool) (uid : Int) (st : AggState) (n : Nat)
       (state : Option String) (ts : Option Int),
      (enrStep { o with getCourse := fun _ => Except.error () } ia uid st
          { course_id := some ((n : Int) + 1), enrollment_state := state,
            createdAt := ts }).courseNames = st.courseNames ∧
      (enrStep { o with getCourse := fun _ => Except.error () } ia uid st
          { course_id := some ((n : Int) + 1), enrollment_state := state,
            createdAt := ts }).statuses = st.statuses ++ [state.getD ""]) ∧
    (∀ (o : Oracles) (uid : Int) (st : AggState) (n : Nat) (assns : List Assignment)
       (subs : List Submission) (state : Option String) (ts : Option Int),
      (enrStep { o with getCourse := fun _ => Except.error (),
                        listAssignments := fun _ => Except.ok assns,
                        listSubmissions := fun _ _ => Except.ok subs } true uid st
          { course_id := some ((n : Int) + 1), enrollment_state := state,
            createdAt := ts }).totalAssignments = st.totalAssignments + assns.length ∧
      (enrStep { o with getCourse := fun _ => Except.error (),
                        listAssignments := fun _ => Except.ok assns,
                        listSubmissions := fun _ _ => Except.ok subs } true uid st
          { course_id := some ((n : Int) + 1), enrollment_state := state,
            createdAt := ts }).completedAssignments =
        st.completedAssignments + (subs.filter isCompleteSubmission).length) ∧
    (∀ (o : Oracles) (uid : Int) (st : AggState) (e : Enrollment),
      (enrStep o false uid st e).totalAssignments = st.totalAssignments ∧
      (enrStep o false uid st e).completedAssignments = st.completedAssignments) := by
  refine ⟨?_, ?_, ?_, ?_⟩
  · intro o f ia uid st e
    rcases e with ⟨cid, stt, ts⟩
    cases cid with
    | none => exact ⟨rfl, rfl, rfl, rfl, rfl⟩
    | some c =>
      by_cases hc : c = 0
      · subst hc; simp [enrStep]
      · cases hgc : o.getCourse c <;> cases hfc : f c <;> cases ia <;>
          cases hla : o.listAssignments c <;> cases hls : o.listSubmissions c uid <;>
          simp [enrStep, hc, hgc, hfc, hla, hls]
  · intro o ia uid st n state ts
    have hc : ((n : Int) + 1) ≠ 0 := by omega
    cases ia <;> cases hla : o.listAssignments ((n : Int) + 1) <;>
      cases hls : o.listSubmissions ((n : Int) + 1) uid <;>
      simp [enrStep, hc, hla, hls]
  · intro o uid st n assns subs state ts
    have hc : ((n : Int) + 1) ≠ 0 := by omega
    simp [enrStep, hc]
  · intro o uid st e
    rcases e with ⟨cid, stt, ts⟩
    cases cid with
    | none => exact ⟨rfl, rfl⟩
    | some c =>
      by_cases hc : c = 0
      · subst hc; simp [enrStep]
      · cases hgc : o.getCourse c <;> simp [enrStep, hc, hgc]

/-- `firstNonEmptyStr` unfolds over a cons cell. -/
theorem firstNonEmptyStr_cons (s : String) (l : List String) :
    firstNonEmptyStr (s :: l) = if s ≠ "" then s else firstNonEmptyStr l := by
  by_cases h : s = "" <;> simp [firstNonEmptyStr, h]

/-- The first non-empty string of a list appended to itself is that of the
list. -/
theorem firstNonEmptyStr_append_self (l : List String) :
    firstNonEmptyStr (l ++ l) = firstNonEmptyStr l := by
  unfold firstNonEmptyStr
  rw [List.filter_append]
  cases h : l.filter (fun s => s ≠ "") with
  | nil => simp [h]
  | cons a r => simp [h]

/-- A first-write-wins field seeing no further values keeps its value. -/
theorem firstWrite_nil (a : String) : a = if a ≠ "" then a else firstNonEmptyStr [] := by
  by_cases h : a = "" <;> simp [h, firstNonEmptyStr]

/-- Writing `b` into a first-write-wins field holding `a` and then folding the
rest is folding `a` then `b` then the rest. -/
theorem firstWrite_assoc (a b f : String) :
    (if (if a ≠ "" then a else b) ≠ "" then (if a ≠ "" then a else b) else f) =
      (if a ≠ "" then a else if b ≠ "" then b else f) := by
  by_cases ha : a = "" <;> by_cases hb : b = "" <;> simp [ha, hb]

/-- Closed form of the observer fold: the flag flips when any record matches,
and each guardian field keeps an already non-empty value, else takes the first
non-empty value among the matching records. -/
theorem obsFold_char (uid : Int) :
    ∀ (recs : List Obs) (g : GuardState),
      obsFold uid g recs =
        { observer_linked := if recs.any (obsMatches uid) then "Yes" else g.observer_linked,
          parent_first := if g.parent_first ≠ "" then g.parent_first
            else firstNonEmptyStr ((recs.filter (obsMatches uid)).map obsPF),
          parent_last := if g.parent_last ≠ "" then g.parent_last
            else firstNonEmptyStr ((recs.filter (obsMatches uid)).map obsPL),
          parent_email := if g.parent_email ≠ "" then g.parent_email
            else firstNonEmptyStr ((recs.filter (obsMatches uid)).map obsPE) } := by
  intro recs
  induction recs with
  | nil =>
    intro g
    rcases g with ⟨ol, pf, pl, pe⟩
    simp only [obsFold, List.foldl_nil, List.any_nil, List.filter_nil, List.map_nil,
      Bool.false_eq_true, if_false, GuardState.mk.injEq]
    exact ⟨trivial, firstWrite_nil pf, firstWrite_nil pl, firstWrite_nil pe⟩
  | cons r rest ih =>
    intro g
    have h1 : obsFold uid g (r :: rest) = obsFold uid (obsStep uid g r) rest := rfl
    rw [h1, ih]
    by_cases hm : obsMatches uid r
    · rcases g with ⟨ol, pf, pl, pe⟩
      simp only [obsStep, hm, Bool.not_true, Bool.false_eq_true, if_false,
        List.any_cons, Bool.true_or, if_true, List.filter_cons, List.map_cons,
        firstNonEmptyStr_cons, GuardState.mk.injEq]
      refine ⟨by simp, ?_, ?_, ?_⟩ <;> apply firstWrite_assoc
    · have h2 : obsStep uid g r = g := by simp [obsStep, hm]
      rw [h2]
      simp [List.any_cons, List.filter_cons, hm]

/-- C7: guardian-field population is first-write-wins per field and
idempotent: the fold's flag is `"Yes"` as soon as any record matches the
student (the first match flips it), each guardian field keeps an already
non-empty value and otherwise takes the first non-empty value among the
matching records (later matches never overwrite a populated field), replaying
the same record sequence changes nothing, and a matching record with an empty
user payload yields the valid state of a `"Yes"` flag with empty guardian
fields. -/
theorem guardian_first_write_c7 :
    (∀ (uid : Int) (g : GuardState) (recs : List Obs),
      (obsFold uid g recs).observer_linked =
        if recs.any (obsMatches uid) then "Yes" else g.observer_linked) ∧
    (∀ (uid : Int) (g : GuardState) (recs : List Obs),
      (obsFold uid g recs).parent_first =
        if g.parent_first ≠ "" then g.parent_first
        else firstNonEmptyStr ((recs.filter (obsMatches uid)).map obsPF)) ∧
    (∀ (uid : Int) (g : GuardState) (recs : List Obs),
      (obsFold uid g recs).parent_last =
        if g.parent_last ≠ "" then g.parent_last
        else firstNonEmptyStr ((recs.filter (obsMatches uid)).map obsPL)) ∧
    (∀ (uid : Int) (g : GuardState) (recs : List Obs),
      (obsFold uid g recs).parent_email =
        if g.parent_email ≠ "" then g.parent_email
        else firstNonEmptyStr ((recs.filter (obsMatches uid)).map obsPE)) ∧
    (∀ (uid : Int) (recs : List Obs),
      obsFold uid initGuardState (recs ++ recs) = obsFold uid initGuardState recs) ∧
    obsFold 5 initGuardState [{ associated_user_id := some 5, user := none }] =
      { observer_linked := "Yes", parent_first := "", parent_last := "",
        parent_email := "" } := by
  refine ⟨?_, ?_, ?_, ?_, ?_, by rfl⟩
  · intro uid g recs; rw [obsFold_char]
  · intro uid g recs; rw [obsFold_char]
  · intro uid g recs; rw [obsFold_char]
  · intro uid g recs; rw [obsFold_char]
  · intro uid recs
    rw [obsFold_char, obsFold_char]
    simp only [initGuardState, List.any_append, Bool.or_self, List.filter_append,
      List.map_append, ne_eq, not_true_eq_false, if_false,
      firstNonEmptyStr_append_self]

end CanvasSync
